import Mathlib

/-!
Verification development for the MXNet MNIST example script
(src/sagemaker_neo_compilation_jobs/mxnet_mnist/mnist.py).

The script is shallowly embedded: pure data-flow logic (header parsing,
sharding arithmetic, content-type dispatch, softmax post-processing) is
translated directly; framework calls (gzip decompression, the fit loop,
np.load, the forward pass of the model, np.exp) are abstracted as explicit
function parameters or as an effect trace, keeping the control flow of the
source intact.  Machine reals are modelled as rationals.
-/

/-- A byte, as produced by reading a (decompressed) file. -/
abbrev Byte := Fin 256

/-- np.fromstring with dtype int8: reinterpret a byte as a signed 8-bit
integer. -/
def int8OfByte (b : Byte) : Int :=
  if b.val < 128 then (b.val : Int) else (b.val : Int) - 256

/-- One big-endian 32-bit field of a struct.unpack call: the first four
bytes of the list, most significant first. -/
def readBE32 (bs : List Byte) : Nat :=
  match bs with
  | b0 :: b1 :: b2 :: b3 :: _ =>
      ((b0.val * 256 + b1.val) * 256 + b2.val) * 256 + b3.val
  | _ => 0

/-- find_file from the source: walk the directory tree (modelled as the
list of (root, files in root) pairs that os.walk yields, in walk order)
and return the joined path of the first directory holding file_name, or
None when no directory does. -/
def find_file (walk : List (String × List String)) (file_name : String) :
    Option String :=
  match walk with
  | [] => none
  | (root, files) :: rest =>
      if file_name ∈ files then some (root ++ "/" ++ file_name)
      else find_file rest file_name

/-- The failure conditions of load_data.  labelsNotFound / imagesNotFound
model find_file returning None (the subsequent gzip.open(None) raises);
badLabelHeader / badImageHeader model struct.error on a short read;
reshapeError models the ValueError of an np.reshape size mismatch. -/
inductive LoadError
  | labelsNotFound
  | imagesNotFound
  | badLabelHeader
  | badImageHeader
  | reshapeError
  deriving DecidableEq

/-- The image half of load_data: 16-byte big-endian header (magic, count,
rows, cols — magic and count discarded), remaining bytes as unsigned
8-bit pixels, reshaped to (len(labels), rows, cols), then to
(len(labels), 1, 28, 28), cast to float and divided by 255.  Tensors are
kept flattened, so the two reshapes become the two element-count
side-conditions numpy checks. -/
def parseImages (labels : List Int) (ib : List Byte) :
    Except LoadError (List Int × List ℚ) :=
  if ib.length < 16 then .error .badImageHeader
  else
    let rows := readBE32 (ib.drop 8)
    let cols := readBE32 (ib.drop 12)
    let pixels := ib.drop 16
    if pixels.length ≠ labels.length * (rows * cols) then .error .reshapeError
    else if labels.length * (rows * cols) ≠ labels.length * (1 * 28 * 28) then
      .error .reshapeError
    else .ok (labels, pixels.map fun u => (u.val : ℚ) / 255)

/-- load_data from the source.  walk models os.walk of the root path;
content maps a file path to its decompressed bytes (gzip is framework
code).  The label file is located and parsed first — 8-byte discarded
header, remaining bytes as signed 8-bit integers — then the image file is
located and parsed relative to the label count. -/
def load_data (walk : List (String × List String))
    (content : String → List Byte) :
    Except LoadError (List Int × List ℚ) :=
  match find_file walk "labels.gz" with
  | none => .error .labelsNotFound
  | some lp =>
    let lb := content lp
    if lb.length < 8 then .error .badLabelHeader
    else
      let labels := (lb.drop 8).map int8OfByte
      match find_file walk "images.gz" with
      | none => .error .imagesNotFound
      | some ip => parseImages labels (content ip)

/-- A device context, mx.cpu() or mx.gpu(i). -/
inductive Context
  | cpu
  | gpu (i : Nat)
  deriving DecidableEq

/-- get_training_context from the source.  The Python guard is the
truthiness of num_gpus, so any nonzero integer takes the GPU branch;
range of a negative count is empty. -/
def get_training_context (num_gpus : Int) : List Context :=
  if num_gpus ≠ 0 then (List.range num_gpus.toNat).map Context.gpu
  else [Context.cpu]

/-- The for/enumerate/break loop of train that binds start and end for
the first list position holding current_host; none when the loop falls
through and the two locals stay unbound. -/
def shardLoop (shard_size : Nat) (current_host : String) :
    List String → Nat → Option (Nat × Nat)
  | [], _ => none
  | host :: rest, i =>
      if host = current_host then
        some (shard_size * i, shard_size * i + shard_size)
      else shardLoop shard_size current_host rest (i + 1)

/-- How a run of train can abort before completing: shard_size division
by a zero-length hosts list, or use of the never-bound start/end locals
when current_host is not in hosts. -/
inductive TrainError
  | zeroDivision
  | unboundLocal
  deriving DecidableEq

/-- The observable outcome of a completed train run: the half-open index
range of the training shard actually used, and the names of the files
written to the model directory. -/
structure TrainEffects where
  start : Nat
  stop : Nat
  writes : List String
  deriving DecidableEq

/-- save from the source, as the list of file names it writes to the
model directory, in write order. -/
def save : List String :=
  ["model-symbol.json", "model-0000.params", "model-shapes.json"]

/-- train from the source, reduced to its data-flow skeleton: the dataset
is already loaded (load_data is verified separately) and only its size
matters; graph construction and the fit call are framework code with no
bearing on shard selection or persistence.  Matches the source order:
shard_size = N // len(hosts) (ZeroDivisionError on an empty hosts list),
the enumerate loop binds the shard bounds (UnboundLocalError downstream
when current_host never matches), and save runs iff current_host is
hosts[0]. -/
def train (trainSize : Nat) (hosts : List String) (current_host : String) :
    Except TrainError TrainEffects :=
  match hosts with
  | [] => .error .zeroDivision
  | host0 :: rest =>
    match shardLoop (trainSize / (host0 :: rest).length) current_host
        (host0 :: rest) 0 with
    | none => .error .unboundLocal
    | some se =>
        .ok ⟨se.1, se.2, if current_host = host0 then save else []⟩

/-- np.max over the flattened output vector (errors on an empty array in
numpy; the zero default is never reached under the nonemptiness
precondition of the softmax lemmas). -/
def maxOf : List ℚ → ℚ
  | [] => 0
  | x :: xs => xs.foldl max x

/-- result_exp = np.exp(result - np.max(result)), with np.exp abstracted
as the exp parameter. -/
def softmaxNumerators (exp : ℚ → ℚ) (xs : List ℚ) : List ℚ :=
  xs.map fun x => exp (x - maxOf xs)

/-- result = result_exp / np.sum(result_exp): the numerically-stable
softmax of the post-processing step of transform_fn. -/
def stableSoftmax (exp : ℚ → ℚ) (xs : List ℚ) : List ℚ :=
  (softmaxNumerators exp xs).map fun v => v / (softmaxNumerators exp xs).sum

/-- The side effects a transform_fn call performs on the payload and the
model handle, in order: np.load of the payload, and the forward pass that
mutates the module state. -/
inductive TEvent
  | deserialize
  | forward
  deriving DecidableEq

/-- Outcome of a transform_fn call: either the (probability vector,
content type) response or the message of the raised error, together with
the trace of effects performed. -/
structure TransformResult where
  output : Except String (List ℚ × String)
  events : List TEvent

/-- transform_fn from the source.  decode abstracts np.load on the raw
payload bytes (None when the buffer is not a valid npy file); forward
abstracts mod.forward followed by mod.get_outputs()[0] and np.squeeze
(tensors are flattened, so squeeze preserves the data).  The JSON body is
modelled as the probability vector it serializes.  The content-type guard
runs before anything touches the payload or the model, and the returned
content type is rebound to application/json regardless of
output_content_type. -/
def transform_fn (decode : List Byte → Option (List ℚ))
    (forward : List ℚ → List ℚ) (exp : ℚ → ℚ) (payload : List Byte)
    (input_content_type output_content_type : String) : TransformResult :=
  if input_content_type ≠ "application/x-npy" then
    ⟨.error "Input content type must be application/x-npy", []⟩
  else
    match decode payload with
    | none => ⟨.error "invalid npy payload", [.deserialize]⟩
    | some arr =>
        ⟨.ok (stableSoftmax exp (forward arr), "application/json"),
          [.deserialize, .forward]⟩

/-! ### Sharding lemmas -/

/-- The enumerate loop never binds the shard bounds when current_host is
absent from the remaining hosts. -/
theorem shardLoop_eq_none_of_not_mem (s : Nat) (ch : String) :
    ∀ (l : List String) (k : Nat), ch ∉ l → shardLoop s ch l k = none := by
  intro l
  induction l with
  | nil => intro k h; rfl
  | cons h t ih =>
    intro k hmem
    have hne : h ≠ ch := fun he => hmem (he ▸ List.mem_cons_self h t)
    have hmt : ch ∉ t := fun ht => hmem (List.mem_cons_of_mem h ht)
    simp [shardLoop, hne, ih _ hmt]

/-- The enumerate loop binds the shard bounds as soon as current_host
occurs somewhere in the remaining hosts. -/
theorem shardLoop_isSome_of_mem (s : Nat) (ch : String) :
    ∀ (l : List String) (k : Nat), ch ∈ l → (shardLoop s ch l k).isSome := by
  intro l
  induction l with
  | nil => intro k h; cases h
  | cons h t ih =>
    intro k hmem
    by_cases he : h = ch
    · simp [shardLoop, he]
    · have hmt : ch ∈ t := by
        cases List.mem_cons.mp hmem with
        | inl h1 => exact absurd h1.symm he
        | inr h2 => exact h2
      simp [shardLoop, he, ih (k + 1) hmt]

/-- On a duplicate-free hosts list the loop stops exactly at the position
of current_host and yields the bounds the source computes there. -/
theorem shardLoop_eq_of_get (s : Nat) (ch : String) :
    ∀ (l : List String) (k i : Nat) (hi : i < l.length), l.Nodup →
      l.get ⟨i, hi⟩ = ch →
      shardLoop s ch l k = some (s * (k + i), s * (k + i) + s) := by
  intro l
  induction l with
  | nil => intro k i hi; cases hi
  | cons h t ih =>
    intro k i hi hnd hch
    cases i with
    | zero =>
      have hh : h = ch := hch
      simp [shardLoop, hh]
    | succ j =>
      have hj : j < t.length := Nat.lt_of_succ_lt_succ hi
      have hcht : t.get ⟨j, hj⟩ = ch := hch
      have hmem : ch ∈ t := hcht ▸ t.get_mem j hj
      have hne : h ≠ ch := fun he => (List.nodup_cons.mp hnd).1 (he ▸ hmem)
      have hrec := ih (k + 1) j hj (List.nodup_cons.mp hnd).2 hcht
      simp only [shardLoop, if_neg hne, hrec]
      have harith : k + 1 + j = k + (j + 1) := by omega
      rw [harith]

/-! ### C1, C5, C9: the training driver -/

/-- C1: for a training set of size N and a hosts list of length H holding
current_host at position i, train computes shard_size = N / H and trains
on exactly the contiguous range from i * shard_size to
(i + 1) * shard_size; ranges of distinct positions are disjoint, all
hosts together use H * (N / H) samples, and the N mod H remainder is
dropped. -/
theorem train_shard_partition (N : Nat) (hosts : List String) (ch : String)
    (i : Nat) (hi : i < hosts.length) (hnd : hosts.Nodup)
    (hch : hosts.get ⟨i, hi⟩ = ch) :
    ∃ eff, train N hosts ch = .ok eff ∧
      eff.start = i * (N / hosts.length) ∧
      eff.stop = (i + 1) * (N / hosts.length) ∧
      (∀ i2 j2 k : Nat, i2 ≠ j2 →
        ¬(i2 * (N / hosts.length) ≤ k ∧ k < (i2 + 1) * (N / hosts.length) ∧
          j2 * (N / hosts.length) ≤ k ∧ k < (j2 + 1) * (N / hosts.length))) ∧
      hosts.length * (N / hosts.length) + N % hosts.length = N := by
  cases hosts with
  | nil => exact absurd hi (by simp)
  | cons h0 rest =>
    have hsl := shardLoop_eq_of_get (N / (h0 :: rest).length) ch
      (h0 :: rest) 0 i hi hnd hch
    rw [Nat.zero_add] at hsl
    simp only [List.length_cons] at hsl
    refine ⟨⟨N / (h0 :: rest).length * i,
             N / (h0 :: rest).length * i + N / (h0 :: rest).length,
             if ch = h0 then save else []⟩,
            ?_, Nat.mul_comm _ _, by ring, ?_,
            Nat.div_add_mod N (h0 :: rest).length⟩
    · simp [train, hsl]
    · intro i2 j2 k hne2 hk
      obtain ⟨h1, h2, h3, h4⟩ := hk
      rcases Nat.lt_or_ge i2 j2 with hlt | hge
      · have hm : (i2 + 1) * (N / (h0 :: rest).length) ≤
            j2 * (N / (h0 :: rest).length) := Nat.mul_le_mul_right _ hlt
        exact lt_irrefl k (lt_of_lt_of_le h2 (le_trans hm h3))
      · have hlt2 : j2 + 1 ≤ i2 := by omega
        have hm : (j2 + 1) * (N / (h0 :: rest).length) ≤
            i2 * (N / (h0 :: rest).length) := Nat.mul_le_mul_right _ hlt2
        exact lt_irrefl k (lt_of_lt_of_le h4 (le_trans hm h1))

/-- Witness for C1: two hosts a and b, current host b at position 1,
five training samples, shard size 5 / 2 = 2. -/
theorem train_shard_partition_witness :
    ∃ eff, train 5 ["a", "b"] "b" = .ok eff ∧
      eff.start = 1 * (5 / (["a", "b"] : List String).length) ∧
      eff.stop = (1 + 1) * (5 / (["a", "b"] : List String).length) ∧
      (∀ i2 j2 k : Nat, i2 ≠ j2 →
        ¬(i2 * (5 / (["a", "b"] : List String).length) ≤ k ∧
          k < (i2 + 1) * (5 / (["a", "b"] : List String).length) ∧
          j2 * (5 / (["a", "b"] : List String).length) ≤ k ∧
          k < (j2 + 1) * (5 / (["a", "b"] : List String).length))) ∧
      (["a", "b"] : List String).length *
          (5 / (["a", "b"] : List String).length) +
          5 % (["a", "b"] : List String).length = 5 :=
  train_shard_partition 5 ["a", "b"] "b" 1 (by decide) (by decide) rfl

/-- C5: whenever train completes, the save step writes exactly the three
model artifacts on the host equal to hosts[0] and writes nothing on any
other host. -/
theorem train_save_gating (N : Nat) (h0 : String) (rest : List String)
    (ch : String) (eff : TrainEffects)
    (hok : train N (h0 :: rest) ch = .ok eff) :
    (ch = h0 → eff.writes =
      ["model-symbol.json", "model-0000.params", "model-shapes.json"]) ∧
    (ch ≠ h0 → eff.writes = []) := by
  simp only [train] at hok
  cases hsl : shardLoop (N / (h0 :: rest).length) ch (h0 :: rest) 0 with
  | none =>
    rw [hsl] at hok
    exact Except.noConfusion hok
  | some se =>
    rw [hsl] at hok
    have heff : (⟨se.1, se.2, if ch = h0 then save else []⟩ : TrainEffects)
        = eff := Except.ok.inj hok
    constructor
    · intro hch
      rw [← heff]
      simp [hch, save]
    · intro hch
      rw [← heff]
      simp [hch]

/-- Witness for C5: two hosts with the leader as current host; train
returns the shard (0, 2) and writes the three artifact files. -/
theorem train_save_gating_witness :
    (⟨0, 2, save⟩ : TrainEffects).writes =
      ["model-symbol.json", "model-0000.params", "model-shapes.json"] :=
  (train_save_gating 4 "a" ["b"] "a" ⟨0, 2, save⟩ rfl).1 rfl

/-- Counterexample for C9: the empty hosts list does not contain
current_host either, yet there train aborts with the zero-division
failure of shard_size = N // len(hosts), raised before the shard loop
ever runs — not the unbound-local error the claim asserts for every
non-containing hosts list. -/
theorem train_requires_membership_counterexample :
    ("a" ∉ ([] : List String)) ∧
    train 3 [] "a" = .error .zeroDivision ∧
    TrainError.zeroDivision ≠ TrainError.unboundLocal :=
  ⟨by decide, rfl, by decide⟩

/-- C9 (amended): for every nonempty hosts list, train aborts with the
unbound-local failure of the never-taken break exactly when current_host
is not a member of hosts — the loop completes without binding the shard
bounds, before any data iterator is built; membership makes that error
branch unreachable and the run complete.  (The empty hosts list instead
fails earlier with the zero-division error of the shard_size
computation.) -/
theorem train_requires_membership (N : Nat) (hosts : List String)
    (ch : String) (hne : hosts ≠ []) :
    (ch ∉ hosts → train N hosts ch = .error .unboundLocal) ∧
    (ch ∈ hosts → ∃ eff, train N hosts ch = .ok eff) := by
  cases hosts with
  | nil => exact absurd rfl hne
  | cons h0 rest =>
    constructor
    · intro hmem
      have hsl := shardLoop_eq_none_of_not_mem (N / (h0 :: rest).length) ch
        (h0 :: rest) 0 hmem
      simp only [List.length_cons] at hsl
      simp [train, hsl]
    · intro hmem
      have hsl := shardLoop_isSome_of_mem (N / (h0 :: rest).length) ch
        (h0 :: rest) 0 hmem
      obtain ⟨se, hse⟩ := Option.isSome_iff_exists.mp hsl
      simp only [List.length_cons] at hse
      exact ⟨⟨se.1, se.2, if ch = h0 then save else []⟩, by simp [train, hse]⟩

/-- Witness for C9 (amended): host c is not among hosts a, b and train
aborts with the unbound-local failure. -/
theorem train_requires_membership_witness :
    train 7 ["a", "b"] "c" = .error .unboundLocal :=
  (train_requires_membership 7 ["a", "b"] "c" (by decide)).1 (by decide)

/-! ### C8: device selection -/

/-- Counterexample for C8: at GPU count -1 the Python truthiness guard
takes the GPU branch and the range comprehension is empty, so the result
is the empty context list, not the single CPU context the claim
predicts for non-positive counts. -/
theorem get_training_context_counterexample :
    get_training_context (-1) = [] ∧
    get_training_context (-1) ≠ [Context.cpu] := by
  constructor
  · rfl
  · intro h
    exact List.noConfusion (show ([] : List Context) = [Context.cpu] from h)

/-- C8 (amended): a positive GPU count yields one device context per GPU
index 0..count-1; a zero count yields the single CPU context; a negative
count takes the truthy GPU branch over an empty range and yields the
empty context list. -/
theorem get_training_context_amended (n : Int) :
    (0 < n → get_training_context n = (List.range n.toNat).map Context.gpu) ∧
    (n = 0 → get_training_context n = [Context.cpu]) ∧
    (n < 0 → get_training_context n = []) := by
  refine ⟨?_, ?_, ?_⟩
  · intro hpos
    have hne : n ≠ 0 := ne_of_gt hpos
    simp [get_training_context, hne]
  · intro hz
    simp [get_training_context, hz]
  · intro hneg
    have hne : n ≠ 0 := ne_of_lt hneg
    have htz : n.toNat = 0 := Int.toNat_of_nonpos (le_of_lt hneg)
    simp [get_training_context, hne, htz]

/-- Witness for C8: counts 2, 0 and -2 land in the three branches. -/
theorem get_training_context_witness :
    get_training_context 2 = (List.range (2 : Int).toNat).map Context.gpu ∧
    get_training_context 0 = [Context.cpu] ∧
    get_training_context (-2) = [] :=
  ⟨(get_training_context_amended 2).1 (by decide),
   (get_training_context_amended 0).2.1 rfl,
   (get_training_context_amended (-2)).2.2 (by decide)⟩

/-! ### C3, C4, C7: the inference transform -/

/-- Dividing every list entry by a common denominator divides the sum. -/
theorem sum_map_div (l : List ℚ) (S : ℚ) :
    (l.map fun v => v / S).sum = l.sum / S := by
  induction l with
  | nil => simp
  | cons a t ih => simp [ih, add_div]

/-- With a strictly positive exponential and a nonempty input, the
softmax post-processing of transform_fn yields a probability vector: it
sums to one and every entry lies between zero and one. -/
theorem stableSoftmax_prob (exp : ℚ → ℚ) (xs : List ℚ)
    (hexp : ∀ x, 0 < exp x) (hxs : xs ≠ []) :
    (stableSoftmax exp xs).sum = 1 ∧
    ∀ p ∈ stableSoftmax exp xs, 0 ≤ p ∧ p ≤ 1 := by
  have hepos : ∀ v ∈ softmaxNumerators exp xs, 0 < v := by
    intro v hv
    rcases List.mem_map.mp hv with ⟨x, hx, hvx⟩
    rw [← hvx]
    exact hexp _
  have hene : softmaxNumerators exp xs ≠ [] := by
    intro h0
    exact hxs (List.map_eq_nil_iff.mp h0)
  have hS : 0 < (softmaxNumerators exp xs).sum :=
    List.sum_pos (softmaxNumerators exp xs) hepos hene
  constructor
  · rw [stableSoftmax, sum_map_div, div_self (ne_of_gt hS)]
  · intro p hp
    rcases List.mem_map.mp hp with ⟨v, hv, hpv⟩
    rw [← hpv]
    constructor
    · exact div_nonneg (le_of_lt (hepos v hv)) (le_of_lt hS)
    · exact (div_le_one hS).mpr
        (List.single_le_sum (fun a ha => le_of_lt (hepos a ha)) v hv)

/-- C3: any input content type other than application/x-npy makes
transform_fn raise the runtime error before anything happens: the result
carries the error message and an empty effect trace, so the payload was
never deserialized, no forward pass ran, and the model handle is
untouched. -/
theorem transform_fn_rejects_bad_content_type
    (decode : List Byte → Option (List ℚ)) (forward : List ℚ → List ℚ)
    (exp : ℚ → ℚ) (payload : List Byte) (ict oct : String)
    (h : ict ≠ "application/x-npy") :
    transform_fn decode forward exp payload ict oct =
      ⟨.error "Input content type must be application/x-npy", []⟩ := by
  simp [transform_fn, h]

/-- Witness for C3: a text/csv request is rejected with the runtime
error and an empty effect trace. -/
theorem transform_fn_rejects_bad_content_type_witness :
    transform_fn (fun _ => none) id id [] "text/csv" "application/json" =
      ⟨.error "Input content type must be application/x-npy", []⟩ :=
  transform_fn_rejects_bad_content_type (fun _ => none) id id []
    "text/csv" "application/json" (by decide)

/-- C4: every returning transform_fn call outputs exactly the
numerically-stable softmax of the squeezed first model output, which
therefore sums to one with all entries between zero and one. -/
theorem transform_fn_softmax_normalized
    (decode : List Byte → Option (List ℚ)) (forward : List ℚ → List ℚ)
    (exp : ℚ → ℚ) (payload : List Byte) (oct : String) (arr : List ℚ)
    (hexp : ∀ x, 0 < exp x) (hdec : decode payload = some arr)
    (hfw : forward arr ≠ []) :
    (transform_fn decode forward exp payload "application/x-npy" oct).output
      = .ok (stableSoftmax exp (forward arr), "application/json") ∧
    (stableSoftmax exp (forward arr)).sum = 1 ∧
    ∀ p ∈ stableSoftmax exp (forward arr), 0 ≤ p ∧ p ≤ 1 := by
  have hprob := stableSoftmax_prob exp (forward arr) hexp hfw
  refine ⟨?_, hprob.1, hprob.2⟩
  simp [transform_fn, hdec]

/-- Witness for C4: a constant-one exponential (positive everywhere), a
decoder returning the vector 0 and the identity forward pass. -/
theorem transform_fn_softmax_normalized_witness :
    (transform_fn (fun _ => some [0]) id (fun _ => 1) []
        "application/x-npy" "text/html").output
      = .ok (stableSoftmax (fun _ => 1) (id [0]), "application/json") ∧
    (stableSoftmax (fun _ => 1) (id [0])).sum = 1 ∧
    ∀ p ∈ stableSoftmax (fun _ => 1) (id [0]), 0 ≤ p ∧ p ≤ 1 :=
  transform_fn_softmax_normalized (fun _ => some [0]) id (fun _ => 1) []
    "text/html" [0] (fun _ => one_pos) rfl (by simp)

/-- C7: the requested output content type is ignored — two calls that
differ only there return identical results — and every successful call
declares application/json. -/
theorem transform_fn_output_content_type_fixed
    (decode : List Byte → Option (List ℚ)) (forward : List ℚ → List ℚ)
    (exp : ℚ → ℚ) (payload : List Byte) (ict oct1 oct2 : String) :
    transform_fn decode forward exp payload ict oct1 =
      transform_fn decode forward exp payload ict oct2 ∧
    (∀ out ct,
      (transform_fn decode forward exp payload ict oct1).output =
        .ok (out, ct) → ct = "application/json") := by
  constructor
  · rfl
  · intro out ct h
    by_cases hict : ict = "application/x-npy"
    · subst hict
      cases hd : decode payload with
      | none => simp [transform_fn, hd] at h
      | some arr =>
        simp [transform_fn, hd] at h
        exact h.2.symm
    · simp [transform_fn, hict] at h

/-- Witness for C7: the same request issued with two different output
content types; the successful call declares application/json. -/
theorem transform_fn_output_content_type_fixed_witness :
    transform_fn (fun _ => some [1]) id (fun _ => 1) []
        "application/x-npy" "text/html" =
      transform_fn (fun _ => some [1]) id (fun _ => 1) []
        "application/x-npy" "application/json" ∧
    "application/json" = "application/json" :=
  ⟨(transform_fn_output_content_type_fixed (fun _ => some [1]) id
      (fun _ => 1) [] "application/x-npy" "text/html" "application/json").1,
   (transform_fn_output_content_type_fixed (fun _ => some [1]) id
      (fun _ => 1) [] "application/x-npy" "text/html" "application/json").2
     (stableSoftmax (fun _ => 1) (id [1])) "application/json" rfl⟩

/-! ### C2, C6, C10: the dataset loader -/

/-- C2: on valid input — both files found, an 8 + N byte label file, a
full image header declaring 28 rows and 28 columns, and N * 784 pixel
bytes — load_data returns the labels read as signed 8-bit integers after
the discarded 8-byte header, and images of shape (N, 1, 28, 28) whose
entries are the unsigned pixel bytes divided by 255, hence all within
zero and one. -/
theorem load_data_valid_shape (walk : List (String × List String))
    (content : String → List Byte) (lp ip : String) (N : Nat)
    (hl : find_file walk "labels.gz" = some lp)
    (hi : find_file walk "images.gz" = some ip)
    (hlen : (content lp).length = 8 + N)
    (hilen : 16 ≤ (content ip).length)
    (hrows : readBE32 ((content ip).drop 8) = 28)
    (hcols : readBE32 ((content ip).drop 12) = 28)
    (hpix : ((content ip).drop 16).length = N * 784) :
    ∃ labels images, load_data walk content = .ok (labels, images) ∧
      labels = ((content lp).drop 8).map int8OfByte ∧
      labels.length = N ∧
      images = ((content ip).drop 16).map (fun u => (u.val : ℚ) / 255) ∧
      images.length = labels.length * (1 * 28 * 28) ∧
      ∀ p ∈ images, 0 ≤ p ∧ p ≤ 1 := by
  have hlabnum : (((content lp).drop 8).map int8OfByte).length = N := by
    simp [hlen]
  refine ⟨((content lp).drop 8).map int8OfByte,
          ((content ip).drop 16).map (fun u => (u.val : ℚ) / 255),
          ?_, rfl, hlabnum, rfl, ?_, ?_⟩
  · simp only [load_data, hl, hi]
    rw [if_neg (by omega : ¬ (content lp).length < 8)]
    simp only [parseImages, hrows, hcols]
    rw [if_neg (by omega : ¬ (content ip).length < 16)]
    rw [if_neg (by rw [hpix, hlabnum]; omega :
        ¬ ((content ip).drop 16).length ≠
        (((content lp).drop 8).map int8OfByte).length * (28 * 28))]
    rw [if_neg (by rw [hlabnum]; omega : ¬ (((content lp).drop 8).map
        int8OfByte).length * (28 * 28) ≠
        (((content lp).drop 8).map int8OfByte).length * (1 * 28 * 28))]
  · rw [List.length_map, hpix, List.length_map, List.length_drop, hlen]
    omega
  · intro p hp
    rcases List.mem_map.mp hp with ⟨u, hu, hpu⟩
    rw [← hpu]
    constructor
    · positivity
    · rw [div_le_one (by norm_num)]
      have hub : u.val ≤ 255 := Nat.lt_succ_iff.mp u.isLt
      exact_mod_cast hub

/-- A one-directory walk holding both dataset files. -/
def walkD : List (String × List String) := [("d", ["labels.gz", "images.gz"])]

/-- A 16-byte image-file header declaring magic 0, count 0, 28 rows and
28 columns, with no pixel bytes following. -/
def imgHeader28 : List Byte :=
  [0, 0, 0, 0, 0, 0, 0, 0, 0, 0, 0, 28, 0, 0, 0, 28]

/-- Contents of a well-formed empty dataset: a bare 8-byte label header
and the 28-row 28-column image header. -/
def contentA : String → List Byte := fun p =>
  if p = "d/labels.gz" then List.replicate 8 0 else imgHeader28

/-- Witness for C2: the well-formed empty dataset loads as zero labels
and a (0, 1, 28, 28) image tensor. -/
theorem load_data_valid_shape_witness :
    ∃ labels images, load_data walkD contentA = .ok (labels, images) ∧
      labels = ((contentA "d/labels.gz").drop 8).map int8OfByte ∧
      labels.length = 0 ∧
      images = ((contentA "d/images.gz").drop 16).map
        (fun u => (u.val : ℚ) / 255) ∧
      images.length = labels.length * (1 * 28 * 28) ∧
      ∀ p ∈ images, 0 ≤ p ∧ p ≤ 1 :=
  load_data_valid_shape walkD contentA "d/labels.gz" "d/images.gz" 0
    rfl rfl rfl (by decide) (by decide) (by decide) rfl

/-- Counterexample for C6: a directory holding only a zero-byte
labels.gz (images.gz absent from the whole walk) makes load_data fail
with the label-header parse condition, not a not-found condition — the
label file is parsed before the image file is even searched for. -/
theorem load_data_missing_file_counterexample :
    find_file [("d", ["labels.gz"])] "images.gz" = none ∧
    load_data [("d", ["labels.gz"])] (fun _ => []) =
      .error .badLabelHeader ∧
    LoadError.badLabelHeader ≠ LoadError.labelsNotFound ∧
    LoadError.badLabelHeader ≠ LoadError.imagesNotFound :=
  ⟨rfl, rfl, by decide, by decide⟩

/-- C6 (amended): a missing labels.gz always fails with the labels
not-found condition; a missing images.gz fails with the images not-found
condition provided the label file carries its full 8-byte header (a
shorter label file fails with the header parse condition first); in all
cases a missing file means load_data never returns data. -/
theorem load_data_missing_file_fails_amended
    (walk : List (String × List String)) (content : String → List Byte) :
    (find_file walk "labels.gz" = none →
      load_data walk content = .error .labelsNotFound) ∧
    (∀ lp, find_file walk "labels.gz" = some lp →
      8 ≤ (content lp).length →
      find_file walk "images.gz" = none →
      load_data walk content = .error .imagesNotFound) ∧
    ((find_file walk "labels.gz" = none ∨
        find_file walk "images.gz" = none) →
      ∀ r, load_data walk content ≠ .ok r) := by
  refine ⟨?_, ?_, ?_⟩
  · intro h
    simp [load_data, h]
  · intro lp hlp h8 hnone
    simp only [load_data, hlp]
    rw [if_neg (by omega : ¬ (content lp).length < 8)]
    rw [hnone]
  · intro hor r hok
    rcases hor with h | h
    · simp [load_data, h] at hok
    · cases hfl : find_file walk "labels.gz" with
      | none => simp [load_data, hfl] at hok
      | some lp =>
        by_cases h8 : (content lp).length < 8
        · simp [load_data, hfl, h8] at hok
        · simp [load_data, hfl, h8, h] at hok

/-- Witness for C6 (amended): an empty walk finds neither file and
load_data reports the labels not-found condition. -/
theorem load_data_missing_file_fails_witness :
    load_data [] (fun _ => []) = .error .labelsNotFound :=
  (load_data_missing_file_fails_amended [] (fun _ => [])).1 rfl

/-- A 16-byte image-file header that is internally consistent (count 0,
5 rows, 5 columns, no pixel bytes) but whose geometry is not 28 by 28. -/
def imgHeader55 : List Byte :=
  [0, 0, 0, 0, 0, 0, 0, 0, 0, 0, 0, 5, 0, 0, 0, 5]

/-- Contents pairing an empty label file with the 5-by-5 image header. -/
def contentB : String → List Byte := fun p =>
  if p = "d/labels.gz" then List.replicate 8 0 else imgHeader55

/-- Counterexample for C10: with zero labels, load_data succeeds on a
5-by-5 geometry even though rows times columns is 25, not 784 — both
reshapes are of zero total size, so the claimed rows * cols = 784
requirement is not enforced. -/
theorem load_data_geometry_counterexample :
    load_data walkD contentB = .ok ([], []) ∧
    readBE32 ((contentB "d/images.gz").drop 8) *
      readBE32 ((contentB "d/images.gz").drop 12) ≠ 784 :=
  ⟨rfl, by decide⟩

/-- A defeated geometry check — either reshape size condition violated
under a complete header — yields the reshape error. -/
theorem parseImages_error_of_bad_geometry (labels : List Int)
    (ib : List Byte) (hL : 16 ≤ ib.length)
    (hbad : (ib.drop 16).length ≠
        labels.length * (readBE32 (ib.drop 8) * readBE32 (ib.drop 12)) ∨
      labels.length * (readBE32 (ib.drop 8) * readBE32 (ib.drop 12)) ≠
        labels.length * (1 * 28 * 28)) :
    parseImages labels ib = .error .reshapeError := by
  simp only [parseImages]
  rw [if_neg (Nat.not_lt.mpr hL)]
  rcases hbad with h | h
  · rw [if_pos h]
  · by_cases hc1 : (ib.drop 16).length ≠
        labels.length * (readBE32 (ib.drop 8) * readBE32 (ib.drop 12))
    · rw [if_pos hc1]
    · rw [if_neg hc1, if_pos h]

/-- C10 (amended): the image parse never reads the declared image count —
its result is unchanged under any modification of the first eight header
bytes that keeps the file length — and, given a full 16-byte header, it
succeeds exactly when the pixel-byte count equals
len(labels) * rows * cols and len(labels) * rows * cols equals
len(labels) * 784 (so rows * cols = 784 whenever at least one label
exists, while with zero labels any geometry passes); any other geometry
under a full header yields the reshape error. -/
theorem load_data_geometry_amended (labels : List Int) (ib1 ib2 : List Byte)
    (hlen : ib1.length = ib2.length) (htl : ib1.drop 8 = ib2.drop 8) :
    parseImages labels ib1 = parseImages labels ib2 ∧
    ((∃ r, parseImages labels ib1 = .ok r) ↔
      (16 ≤ ib1.length ∧
        (ib1.drop 16).length =
          labels.length * (readBE32 (ib1.drop 8) * readBE32 (ib1.drop 12)) ∧
        labels.length * (readBE32 (ib1.drop 8) * readBE32 (ib1.drop 12)) =
          labels.length * (1 * 28 * 28))) ∧
    (16 ≤ ib1.length →
      ((ib1.drop 16).length ≠
          labels.length * (readBE32 (ib1.drop 8) * readBE32 (ib1.drop 12)) ∨
        labels.length * (readBE32 (ib1.drop 8) * readBE32 (ib1.drop 12)) ≠
          labels.length * (1 * 28 * 28)) →
      parseImages labels ib1 = .error .reshapeError) := by
  have h12 : ib1.drop 12 = ib2.drop 12 := by
    have e1 : ib1.drop 12 = (ib1.drop 8).drop 4 := by rw [List.drop_drop]
    have e2 : ib2.drop 12 = (ib2.drop 8).drop 4 := by rw [List.drop_drop]
    rw [e1, e2, htl]
  have h16 : ib1.drop 16 = ib2.drop 16 := by
    have e1 : ib1.drop 16 = (ib1.drop 8).drop 8 := by rw [List.drop_drop]
    have e2 : ib2.drop 16 = (ib2.drop 8).drop 8 := by rw [List.drop_drop]
    rw [e1, e2, htl]
  refine ⟨?_, ?_, ?_⟩
  · unfold parseImages
    rw [hlen, htl, h12, h16]
  · constructor
    · rintro ⟨r, hr⟩
      by_cases hL : ib1.length < 16
      · simp [parseImages, hL] at hr
      · by_cases hc1 : (ib1.drop 16).length =
            labels.length * (readBE32 (ib1.drop 8) * readBE32 (ib1.drop 12))
        · by_cases hc2 : labels.length *
              (readBE32 (ib1.drop 8) * readBE32 (ib1.drop 12)) =
              labels.length * (1 * 28 * 28)
          · exact ⟨by omega, hc1, hc2⟩
          · rw [parseImages_error_of_bad_geometry labels ib1 (by omega)
              (Or.inr hc2)] at hr
            exact Except.noConfusion hr
        · rw [parseImages_error_of_bad_geometry labels ib1 (by omega)
            (Or.inl hc1)] at hr
          exact Except.noConfusion hr
    · rintro ⟨hL, hc1, hc2⟩
      refine ⟨(labels, (ib1.drop 16).map fun u => (u.val : ℚ) / 255), ?_⟩
      simp only [parseImages]
      rw [if_neg (Nat.not_lt.mpr hL), if_neg (not_ne_iff.mpr hc1),
        if_neg (not_ne_iff.mpr hc2)]
  · intro hL hbad
    exact parseImages_error_of_bad_geometry labels ib1 hL hbad

/-- Witness for C10 (amended): the 5-by-5 header applied twice, showing
independence of the count field and a successful zero-label parse. -/
theorem load_data_geometry_witness :
    parseImages [] imgHeader55 = parseImages [] imgHeader55 ∧
    ((∃ r, parseImages [] imgHeader55 = .ok r) ↔
      (16 ≤ imgHeader55.length ∧
        (imgHeader55.drop 16).length =
          ([] : List Int).length *
            (readBE32 (imgHeader55.drop 8) * readBE32 (imgHeader55.drop 12)) ∧
        ([] : List Int).length *
            (readBE32 (imgHeader55.drop 8) * readBE32 (imgHeader55.drop 12)) =
          ([] : List Int).length * (1 * 28 * 28))) ∧
    (16 ≤ imgHeader55.length →
      ((imgHeader55.drop 16).length ≠
          ([] : List Int).length *
            (readBE32 (imgHeader55.drop 8) * readBE32 (imgHeader55.drop 12)) ∨
        ([] : List Int).length *
            (readBE32 (imgHeader55.drop 8) * readBE32 (imgHeader55.drop 12)) ≠
          ([] : List Int).length * (1 * 28 * 28)) →
      parseImages [] imgHeader55 = .error .reshapeError) :=
  load_data_geometry_amended [] imgHeader55 imgHeader55 rfl rfl
